import Mathlib

/-
Verification development for the CommunityTouristAssistant repository.

The file shallowly embeds the moderation and trust-scoring subsystem:
the contribution ledger (accounts/models.py, accounts/signals.py), the
place moderation state machine (places/models.py, places/admin.py,
places/signals.py), the review moderation actions (reviews/admin.py),
the review anti-spam similarity check (reviews/spam.py), the
nearby-places query (places/views.py) and the geocoding helper
(places/utils.py).  Database rows become Lean structures, Django saves
with update_fields become explicit merge functions, signal handlers are
inlined at their firing points, and uncaught Python exceptions are
modeled with Except.
-/

/-- Moderation status of a place, from Place.ModerationStatus in places/models.py. -/
inductive MStatus
  | pending
  | approved
  | rejected
deriving DecidableEq, Repr

/-- Contribution row, from accounts/models.py (Contribution).  The points
column is a signed integer column. -/
structure Contribution where
  places_added : Nat
  reviews_added : Nat
  points : Int
  upheld_reports_count : Nat
  review_restriction_active : Bool
deriving DecidableEq, Repr

/-- Row produced by Contribution.objects.get_or_create when no row exists:
all columns take their model defaults. -/
def defaultContribution : Contribution :=
  { places_added := 0, reviews_added := 0, points := 0,
    upheld_reports_count := 0, review_restriction_active := false }

/-- The Contribution.LEVELS table from accounts/models.py: threshold,
level name, badge class. -/
def LEVELS : List (Int × String × String) :=
  [(0, "New Explorer", "secondary"),
   (50, "Local Contributor", "info"),
   (120, "Trusted Guide", "success"),
   (250, "Community Champion", "warning")]

/-- The loop inside Contribution.level_name: walk the table in order,
remember the name of every threshold that is at most points, stop at the
first threshold that is above points. -/
def levelLoop (points : Int) : List (Int × String × String) → String → String
  | [], name => name
  | (threshold, nm, _) :: rest, name =>
    if threshold ≤ points then levelLoop points rest nm else name

/-- Contribution.level_name from accounts/models.py.  The starting value
is LEVELS[0][1], which is the literal string below. -/
def level_name (points : Int) : String :=
  levelLoop points LEVELS "New Explorer"

/-- Modelled from the claim wording for C7: the name attached to the
highest threshold that is at most points, in the LEVELS table (the table
is ascending, so the highest such threshold is the last matching row). -/
def highestLevelName (points : Int) : String :=
  match (LEVELS.filter fun l => l.1 ≤ points).getLast? with
  | some row => row.2.1
  | none => "New Explorer"

/-- Rank of a level name: its position in the LEVELS table, used to state
that one level is at or below another. -/
def levelRank (nm : String) : Nat :=
  (LEVELS.map fun l => l.2.1).indexOf nm

/-- The ledger of Contribution rows keyed by user id; none means no row
exists for that user yet. -/
def Ledger : Type := Nat → Option Contribution

/-- Read a Contribution row. -/
def ledgerGet (l : Ledger) (u : Nat) : Option Contribution := l u

/-- Write a Contribution row. -/
def ledgerSet (l : Ledger) (u : Nat) (c : Contribution) : Ledger :=
  fun v => if v = u then some c else l v

/-- Contribution.objects.get_or_create(user=u): return the existing row,
or create and return a default row. -/
def getOrCreate (l : Ledger) (u : Nat) : Contribution × Ledger :=
  match l u with
  | some c => (c, l)
  | none => (defaultContribution, ledgerSet l u defaultContribution)

/-- The ledger with no rows at all. -/
def emptyLedger : Ledger := fun _ => none

/-- The moderation columns of a Place row, from places/models.py.  The
four polymorphic subtypes only add presentation columns and share this
base save logic, so one structure covers all of them.  Timestamps and
user references are abstracted to naturals. -/
structure Place where
  moderation_status : MStatus
  is_approved : Bool
  is_archived : Bool
  archived_at : Option Nat
  archived_by : Option Nat
  created_by : Option Nat
deriving DecidableEq, Repr

/-- The Place columns that appear in an update_fields list at some call
site of Place.save in the repository. -/
inductive PlaceField
  | fModerationStatus
  | fIsApproved
  | fIsArchived
  | fArchivedAt
  | fArchivedBy
deriving DecidableEq, Repr

/-- Database write of a save: with update_fields only the listed columns
are written, otherwise every column is written.  No call site puts
created_by in update_fields, so it is kept from the stored row in the
update_fields case. -/
def applyUpdateFields (stored inst : Place) (fields : Option (List PlaceField)) : Place :=
  match fields with
  | none => inst
  | some fs =>
    { moderation_status :=
        if fs.contains PlaceField.fModerationStatus then inst.moderation_status
        else stored.moderation_status,
      is_approved :=
        if fs.contains PlaceField.fIsApproved then inst.is_approved else stored.is_approved,
      is_archived :=
        if fs.contains PlaceField.fIsArchived then inst.is_archived else stored.is_archived,
      archived_at :=
        if fs.contains PlaceField.fArchivedAt then inst.archived_at else stored.archived_at,
      archived_by :=
        if fs.contains PlaceField.fArchivedBy then inst.archived_by else stored.archived_by,
      created_by := stored.created_by }

/-- In-memory effect of the Place.save override in places/models.py: the
instance is_approved is recomputed from moderation_status before the row
is written, regardless of what the caller assigned. -/
def placeSaveSync (p : Place) : Place :=
  { p with is_approved := p.moderation_status == MStatus.approved }

/-- The post_save handler _award_points_if_newly_approved from
places/signals.py: award 50 points and one places_added to the creator
when the instance is approved, the previously stored status was not
approved, and created_by is set. -/
def awardIfNewlyApproved (previous : Option MStatus) (inst : Place) (l : Ledger) : Ledger :=
  if previous = some MStatus.approved then l
  else if inst.moderation_status ≠ MStatus.approved then l
  else
    match inst.created_by with
    | none => l
    | some u =>
      let cl := getOrCreate l u
      ledgerSet cl.2 u
        { cl.1 with places_added := cl.1.places_added + 1, points := cl.1.points + 50 }

/-- One full save of a Place: the pre_save signal records the previously
stored status, Place.save syncs is_approved and writes the row (honoring
update_fields), and the post_save signal runs the approval award.
stored is none for a row being created. -/
def savePlace (stored : Option Place) (inst : Place) (fields : Option (List PlaceField))
    (l : Ledger) : Place × Ledger :=
  let previous : Option MStatus := stored.map fun p => p.moderation_status
  let synced := placeSaveSync inst
  let newStored :=
    match stored with
    | none => synced
    | some st => applyUpdateFields st synced fields
  (newStored, awardIfNewlyApproved previous synced l)

/-- Moderation log action kinds, from ModerationLog.Action in
reviews/models.py. -/
inductive ModAction
  | place_approved
  | place_rejected
  | place_archived
  | place_restored
  | review_upheld
  | review_dismissed
  | review_archived
  | review_restored
deriving DecidableEq, Repr

/-- Loop body of approve_places in places/admin.py.  The queryset
excludes places already in approved status, so those are untouched. -/
def approvePlaceAction (stored : Place) (l : Ledger) (log : List ModAction) :
    Place × Ledger × List ModAction :=
  if stored.moderation_status = MStatus.approved then (stored, l, log)
  else
    let inst := { stored with moderation_status := MStatus.approved }
    let sl := savePlace (some stored) inst
      (some [PlaceField.fModerationStatus, PlaceField.fIsApproved]) l
    (sl.1, sl.2, log ++ [ModAction.place_approved])

/-- Loop body of reject_places in places/admin.py: every selected place
is rejected. -/
def rejectPlaceAction (stored : Place) (l : Ledger) (log : List ModAction) :
    Place × Ledger × List ModAction :=
  let inst := { stored with moderation_status := MStatus.rejected, is_approved := false }
  let sl := savePlace (some stored) inst
    (some [PlaceField.fModerationStatus, PlaceField.fIsApproved]) l
  (sl.1, sl.2, log ++ [ModAction.place_rejected])

/-- Loop body of archive_places in places/admin.py.  The queryset filters
on is_archived=False, so already archived places are untouched. -/
def archivePlaceAction (stored : Place) (actor now : Nat) (l : Ledger) (log : List ModAction) :
    Place × Ledger × List ModAction :=
  if stored.is_archived then (stored, l, log)
  else
    let inst := { stored with
      is_archived := true, archived_at := some now,
      archived_by := some actor, is_approved := false }
    let sl := savePlace (some stored) inst
      (some [PlaceField.fIsArchived, PlaceField.fArchivedAt, PlaceField.fArchivedBy,
             PlaceField.fIsApproved]) l
    (sl.1, sl.2, log ++ [ModAction.place_archived])

/-- Loop body of restore_places in places/admin.py.  The queryset filters
on is_archived=True; the save does not list is_approved in
update_fields. -/
def restorePlaceAction (stored : Place) (l : Ledger) (log : List ModAction) :
    Place × Ledger × List ModAction :=
  if stored.is_archived then
    let inst := { stored with is_archived := false, archived_at := none, archived_by := none }
    let sl := savePlace (some stored) inst
      (some [PlaceField.fIsArchived, PlaceField.fArchivedAt, PlaceField.fArchivedBy]) l
    (sl.1, sl.2, log ++ [ModAction.place_restored])
  else (stored, l, log)

/-- PlaceAdmin.delete_model in places/admin.py: archives the object with
no is_archived precondition. -/
def deletePlaceFromAdmin (stored : Place) (actor now : Nat) (l : Ledger) (log : List ModAction) :
    Place × Ledger × List ModAction :=
  let inst := { stored with
    is_archived := true, archived_at := some now,
    archived_by := some actor, is_approved := false }
  let sl := savePlace (some stored) inst
    (some [PlaceField.fIsArchived, PlaceField.fArchivedAt, PlaceField.fArchivedBy,
           PlaceField.fIsApproved]) l
  (sl.1, sl.2, log ++ [ModAction.place_archived])

/-- Status of a ReviewReport row, from reviews/models.py. -/
inductive RStatus
  | rPending
  | rUpheld
  | rDismissed
deriving DecidableEq, Repr

/-- The moderation columns of a Review row, from reviews/models.py,
together with the statuses of the ReviewReport rows filed against it. -/
structure Review where
  user : Option Nat
  is_approved : Bool
  reported : Bool
  moderation_penalty_applied : Bool
  is_archived : Bool
  archived_at : Option Nat
  archived_by : Option Nat
  reports : List RStatus
deriving DecidableEq, Repr

/-- Loop body of ReviewAdmin.uphold_reported_reviews in reviews/admin.py.
The queryset filters on reported=True and is_archived=False.  Pending
reports are marked upheld, the review is hidden and unflagged, and when
the review has an author whose penalty was not yet applied the
contribution is penalized (30 points floored at zero, one more upheld
report, restriction from three upheld reports on) exactly once. -/
def upholdReviewAction (rv : Review) (l : Ledger) (log : List ModAction) :
    Review × Ledger × List ModAction :=
  if rv.reported && !rv.is_archived then
    let rv1 := { rv with
      reports := rv.reports.map fun s => if s = RStatus.rPending then RStatus.rUpheld else s,
      is_approved := false,
      reported := false }
    let step :=
      match rv.user with
      | some u =>
        if !rv.moderation_penalty_applied then
          let cl := getOrCreate l u
          let newCount := cl.1.upheld_reports_count + 1
          let c1 := { cl.1 with
            upheld_reports_count := newCount,
            points := max 0 (cl.1.points - 30),
            review_restriction_active :=
              if 3 ≤ newCount then true else cl.1.review_restriction_active }
          ({ rv1 with moderation_penalty_applied := true }, ledgerSet cl.2 u c1)
        else (rv1, l)
      | none => (rv1, l)
    (step.1, step.2, log ++ [ModAction.review_upheld])
  else (rv, l, log)

/-- Loop body of ReviewAdmin.dismiss_reported_reviews in
reviews/admin.py: pending reports are dismissed and the review is
unflagged; the ledger is untouched. -/
def dismissReviewAction (rv : Review) (l : Ledger) (log : List ModAction) :
    Review × Ledger × List ModAction :=
  if rv.reported && !rv.is_archived then
    let rv1 := { rv with
      reports := rv.reports.map fun s => if s = RStatus.rPending then RStatus.rDismissed else s,
      reported := false }
    (rv1, l, log ++ [ModAction.review_dismissed])
  else (rv, l, log)

/-- Loop body of ReviewAdmin.archive_reviews in reviews/admin.py. -/
def archiveReviewAction (rv : Review) (actor now : Nat) (l : Ledger) (log : List ModAction) :
    Review × Ledger × List ModAction :=
  if rv.is_archived then (rv, l, log)
  else
    let rv1 := { rv with
      is_archived := true, archived_at := some now,
      archived_by := some actor, is_approved := false, reported := false }
    (rv1, l, log ++ [ModAction.review_archived])

/-- Loop body of ReviewAdmin.restore_reviews in reviews/admin.py. -/
def restoreReviewAction (rv : Review) (l : Ledger) (log : List ModAction) :
    Review × Ledger × List ModAction :=
  if rv.is_archived then
    let rv1 := { rv with is_archived := false, archived_at := none, archived_by := none }
    (rv1, l, log ++ [ModAction.review_restored])
  else (rv, l, log)

/-- The award_points_for_review handler from accounts/signals.py: on
review creation by an authenticated user, 10 points and one
reviews_added are credited. -/
def reviewCreatedLedger (author : Option Nat) (l : Ledger) : Ledger :=
  match author with
  | none => l
  | some u =>
    let cl := getOrCreate l u
    ledgerSet cl.2 u
      { cl.1 with reviews_added := cl.1.reviews_added + 1, points := cl.1.points + 10 }

/-- Every operation of this subsystem that can read or write Contribution
rows.  Place saves (creation, user edits, and the admin approve, reject,
archive, restore and delete actions) all route through savePlace; review
creation fires award_points_for_review; the four review admin actions
are listed separately; opUserCreated is create_contribution from
accounts/signals.py; opLedgerRead covers the get_or_create calls on the
profile, contributions and restriction-check paths, which never modify
an existing row. -/
inductive SubOp
  | opPlaceSave (stored : Option Place) (inst : Place) (fields : Option (List PlaceField))
  | opUserCreated (u : Nat)
  | opReviewCreated (author : Option Nat)
  | opUphold (rv : Review)
  | opDismiss (rv : Review)
  | opArchiveReview (rv : Review) (actor now : Nat)
  | opRestoreReview (rv : Review)
  | opLedgerRead (u : Nat)

/-- Ledger effect of one subsystem operation. -/
def stepLedger : SubOp → Ledger → Ledger
  | SubOp.opPlaceSave stored inst fields, l => (savePlace stored inst fields l).2
  | SubOp.opUserCreated u, l => (getOrCreate l u).2
  | SubOp.opReviewCreated author, l => reviewCreatedLedger author l
  | SubOp.opUphold rv, l => (upholdReviewAction rv l []).2.1
  | SubOp.opDismiss rv, l => (dismissReviewAction rv l []).2.1
  | SubOp.opArchiveReview rv actor now, l => (archiveReviewAction rv actor now l []).2.1
  | SubOp.opRestoreReview rv, l => (restoreReviewAction rv l []).2.1
  | SubOp.opLedgerRead u, l => (getOrCreate l u).2

/-- Run a sequence of subsystem operations over the ledger. -/
def runOps (ops : List SubOp) (l : Ledger) : Ledger :=
  ops.foldl (fun acc op => stepLedger op acc) l

/-- Every operation in the repository that saves a Place row on top of an
existing stored row.  editSave is a full-instance save from the
user-facing edit and geocoding paths (no update_fields); otherColsSave
is the opening-hours save from places/forms.py, whose update_fields list
touches none of the moderation columns. -/
inductive PlaceOp
  | approve
  | reject
  | archive (actor now : Nat)
  | restore
  | adminDelete (actor now : Nat)
  | editSave (inst : Place)
  | otherColsSave

/-- Stored-row and ledger effect of one place operation. -/
def stepPlace (op : PlaceOp) (st : Place) (l : Ledger) : Place × Ledger :=
  match op with
  | PlaceOp.approve =>
    let r := approvePlaceAction st l []
    (r.1, r.2.1)
  | PlaceOp.reject =>
    let r := rejectPlaceAction st l []
    (r.1, r.2.1)
  | PlaceOp.archive actor now =>
    let r := archivePlaceAction st actor now l []
    (r.1, r.2.1)
  | PlaceOp.restore =>
    let r := restorePlaceAction st l []
    (r.1, r.2.1)
  | PlaceOp.adminDelete actor now =>
    let r := deletePlaceFromAdmin st actor now l []
    (r.1, r.2.1)
  | PlaceOp.editSave inst => savePlace (some st) inst none l
  | PlaceOp.otherColsSave => savePlace (some st) st (some []) l

/-- Run a sequence of place operations over one stored row. -/
def runPlaceOps (st : Place) (l : Ledger) (ops : List PlaceOp) : Place × Ledger :=
  ops.foldl (fun acc op => stepPlace op acc.1 acc.2) (st, l)

/-- The denormalization invariant of claim C2: the stored is_approved
column agrees with the tri-state moderation status. -/
def placeInv (p : Place) : Prop :=
  p.is_approved = (p.moderation_status == MStatus.approved)

/-- Word character for the regex class \w, restricted to the ASCII
alphabet over which the repository data ranges: letters, digits and the
underscore. -/
def isWordChar (c : Char) : Bool := c.isAlphanum || c == '_'

/-- Split a character list on whitespace runs, dropping empty tokens;
acc is the reversed current token. -/
def wsSplitAux : List Char → List Char → List (List Char)
  | [], acc => if acc.isEmpty then [] else [acc.reverse]
  | c :: cs, acc =>
    if c.isWhitespace then
      if acc.isEmpty then wsSplitAux cs [] else acc.reverse :: wsSplitAux cs []
    else wsSplitAux cs (c :: acc)

/-- normalize_text from reviews/spam.py: lowercase, drop every character
that is neither a word character nor whitespace, collapse whitespace
runs to single spaces, and strip the ends. -/
def normalize_text (s : String) : String :=
  let lowered := s.data.map Char.toLower
  let stripped := lowered.filter fun c => isWordChar c || c.isWhitespace
  String.intercalate " " ((wsSplitAux stripped []).map fun t => String.mk t)

/-- Case-insensitive equality of raw texts, for the Django text__iexact
lookup in is_duplicate_or_similar_review. -/
def lowerEq (a b : String) : Bool :=
  a.data.map Char.toLower == b.data.map Char.toLower

/-- Ascending list of positions at which character c occurs in b, as in
the difflib b2j table. -/
def positionsOf (b : List Char) (c : Char) : List Nat :=
  (b.enum.filter fun p => p.2 == c).map fun p => p.1

/-- The difflib autojunk rule: when b has at least 200 elements, an
element occurring in more than one percent of b (strictly more than
b.length / 100 + 1 times) is treated as junk and dropped from b2j. -/
def isPopular (b : List Char) (c : Char) : Bool :=
  decide (200 ≤ b.length) && decide (b.length / 100 + 1 < b.count c)

/-- The b2j lookup of difflib SequenceMatcher: positions of c in b,
empty when c is junk under the autojunk rule. -/
def b2jGet (b : List Char) (c : Char) : List Nat :=
  if isPopular b c then [] else positionsOf b c

/-- Current best block of find_longest_match. -/
structure FLMState where
  besti : Nat
  bestj : Nat
  bestsize : Nat
deriving DecidableEq, Repr

/-- Inner loop of find_longest_match over the positions of a[i] in b:
j2len is the previous row of chain lengths, newj2len the row being
built (absent keys read as zero); positions below blo are skipped and
the loop breaks at the first position at or beyond bhi. -/
def flmInner (j2len : Nat → Nat) (i blo bhi : Nat) :
    List Nat → (Nat → Nat) → FLMState → (Nat → Nat) × FLMState
  | [], newj2len, st => (newj2len, st)
  | j :: js, newj2len, st =>
    if j < blo then flmInner j2len i blo bhi js newj2len st
    else if bhi ≤ j then (newj2len, st)
    else
      let k := (if j = 0 then 0 else j2len (j - 1)) + 1
      let newj2len2 : Nat → Nat := fun x => if x = j then k else newj2len x
      let st2 :=
        if st.bestsize < k then
          { besti := i + 1 - k, bestj := j + 1 - k, bestsize := k }
        else st
      flmInner j2len i blo bhi js newj2len2 st2

/-- Outer loop of find_longest_match over i in the range alo to ahi. -/
def flmOuter (a b : List Char) (blo bhi : Nat) :
    List Nat → (Nat → Nat) → FLMState → FLMState
  | [], _, st => st
  | i :: is, j2len, st =>
    let js := b2jGet b (a.getD i ' ')
    let r := flmInner j2len i blo bhi js (fun _ => 0) st
    flmOuter a b blo bhi is r.1 r.2

/-- Leftward extension loop of find_longest_match: grow the best block
by preceding equal elements whose junk flag matches want; fuel bounds
the iteration count (besti can only decrease besti times). -/
def flmExtLeft (junk : Char → Bool) (want : Bool) (a b : List Char) (alo blo : Nat) :
    Nat → FLMState → FLMState
  | 0, st => st
  | fuel + 1, st =>
    if alo < st.besti && blo < st.bestj &&
       (junk (b.getD (st.bestj - 1) ' ') == want) &&
       (a.getD (st.besti - 1) ' ' == b.getD (st.bestj - 1) ' ') then
      flmExtLeft junk want a b alo blo fuel
        { besti := st.besti - 1, bestj := st.bestj - 1, bestsize := st.bestsize + 1 }
    else st

/-- Rightward extension loop of find_longest_match. -/
def flmExtRight (junk : Char → Bool) (want : Bool) (a b : List Char) (ahi bhi : Nat) :
    Nat → FLMState → FLMState
  | 0, st => st
  | fuel + 1, st =>
    if st.besti + st.bestsize < ahi && st.bestj + st.bestsize < bhi &&
       (junk (b.getD (st.bestj + st.bestsize) ' ') == want) &&
       (a.getD (st.besti + st.bestsize) ' ' == b.getD (st.bestj + st.bestsize) ' ') then
      flmExtRight junk want a b ahi bhi fuel { st with bestsize := st.bestsize + 1 }
    else st

/-- SequenceMatcher.find_longest_match on the ranges a[alo:ahi] and
b[blo:bhi]: the dynamic-programming sweep followed by the non-junk and
junk extension phases. -/
def findLongestMatch (a b : List Char) (alo ahi blo bhi : Nat) : FLMState :=
  let irange := (List.range ahi).drop alo
  let st0 : FLMState := { besti := alo, bestj := blo, bestsize := 0 }
  let st1 := flmOuter a b blo bhi irange (fun _ => 0) st0
  let junk := fun c => isPopular b c
  let st2 := flmExtLeft junk false a b alo blo st1.besti st1
  let st3 := flmExtRight junk false a b ahi bhi (ahi - (st2.besti + st2.bestsize)) st2
  let st4 := flmExtLeft junk true a b alo blo st3.besti st3
  flmExtRight junk true a b ahi bhi (ahi - (st4.besti + st4.bestsize)) st4

/-- Total size of the matching blocks of get_matching_blocks, computed by
the recursive split around each longest match.  Merging adjacent blocks
and the zero-length sentinel do not change the total.  Each recursive
call strictly shrinks the combined range size, so a fuel of the combined
length plus one never runs out. -/
def matchTotalAux (a b : List Char) : Nat → Nat → Nat → Nat → Nat → Nat
  | 0, _, _, _, _ => 0
  | fuel + 1, alo, ahi, blo, bhi =>
    let st := findLongestMatch a b alo ahi blo bhi
    if st.bestsize = 0 then 0
    else
      matchTotalAux a b fuel alo st.besti blo st.bestj + st.bestsize +
        matchTotalAux a b fuel (st.besti + st.bestsize) ahi (st.bestj + st.bestsize) bhi

/-- Sum of the matching block sizes of SequenceMatcher(None, a, b). -/
def matchTotal (a b : List Char) : Nat :=
  matchTotalAux a b (a.length + b.length + 1) 0 a.length 0 b.length

/-- SequenceMatcher.ratio() at least 0.85, expressed exactly over the
rationals: with M the matched total and T the combined length, the float
comparison 2M/T at or above 0.85 is 40M at or above 17T; an empty
combined length gives ratio 1.0 in difflib. -/
def ratioGe85 (a b : List Char) : Bool :=
  let t := a.length + b.length
  if t = 0 then true else decide (17 * t ≤ 40 * matchTotal a b)

/-- One review row as seen by the spam checker: its raw text and its
archive flag; the rows are ordered most recent first, matching the
order_by("-created_at") queryset. -/
structure ReviewRow where
  text : String
  is_archived : Bool
deriving DecidableEq, Repr

/-- Similarity loop of is_duplicate_or_similar_review: walk the recent
texts, skip rows whose normalization is empty, and accept when both
normalized lengths reach 25 and the ratio reaches 0.85. -/
def similarLoop (candidate : List Char) : List String → Bool
  | [] => false
  | t :: ts =>
    let en := (normalize_text t).data
    if en.isEmpty then similarLoop candidate ts
    else if decide (25 ≤ candidate.length) && decide (25 ≤ en.length) &&
            ratioGe85 candidate en then true
    else similarLoop candidate ts

/-- is_duplicate_or_similar_review from reviews/spam.py over the review
rows of one place: an empty normalized candidate is accepted outright
(returning false), then a case-insensitive exact match among all
non-archived rows, then the similarity scan over the 50 most recent
non-archived rows. -/
def is_duplicate_or_similar_review (reviews : List ReviewRow) (text : String) : Bool :=
  let candidate := (normalize_text text).data
  if candidate.isEmpty then false
  else if reviews.any fun r => !r.is_archived && lowerEq r.text text then true
  else
    similarLoop candidate
      (((reviews.filter fun r => !r.is_archived).take 50).map fun r => r.text)

/-- Modelled from the spec wording for C6: true on an exact
case-insensitive repeat among non-archived rows, otherwise true exactly
when one of the 50 most recent non-archived rows has normalized length
at least 25, the normalized candidate has length at least 25, and the
similarity ratio is at least 0.85. -/
def specDuplicateCheck (reviews : List ReviewRow) (text : String) : Bool :=
  if reviews.any fun r => !r.is_archived && lowerEq r.text text then true
  else
    ((reviews.filter fun r => !r.is_archived).take 50).any fun r =>
      decide (25 ≤ (normalize_text text).length) &&
      decide (25 ≤ (normalize_text r.text).length) &&
      ratioGe85 (normalize_text text).data (normalize_text r.text).data

/-- Columns of a Place row used by the nearby-places query; coordinates
are the exact decimal values of the latitude and longitude columns. -/
structure GeoPlace where
  pk : Nat
  is_approved : Bool
  is_archived : Bool
  latitude : Option ℚ
  longitude : Option ℚ
deriving DecidableEq, Repr

/-- Insert x into a list sorted by key, before any element of equal key
that came later in the original list; with sortByKey this reproduces the
stable Python list.sort. -/
def insertByKey {α β : Type} [LinearOrder α] (key : β → α) (x : β) : List β → List β
  | [] => [x]
  | y :: ys => if key x ≤ key y then x :: y :: ys else y :: insertByKey key x ys

/-- Stable sort by key (insertion sort). -/
def sortByKey {α β : Type} [LinearOrder α] (key : β → α) : List β → List β
  | [] => []
  | x :: xs => insertByKey key x (sortByKey key xs)

/-- _get_nearby_places from places/views.py, with the distance
computation d and the one-decimal display rounding round1 as parameters:
when the reference place has both coordinates, keep the approved,
non-archived candidates with both coordinates and a different primary
key, drop those farther than the radius (compared before rounding),
attach the rounded distance, sort ascending by the attached distance
(Python sort is stable) and return at most limit rows. -/
def getNearbyPlaces {α : Type} [LinearOrder α] (d : ℚ → ℚ → ℚ → ℚ → α) (round1 : α → α)
    (radius : α) (limit : Nat) (self : GeoPlace) (candidates : List GeoPlace) :
    List (GeoPlace × α) :=
  match self.latitude, self.longitude with
  | some slat, some slon =>
    let pool := candidates.filter fun c =>
      c.is_approved && !c.is_archived && c.latitude.isSome && c.longitude.isSome &&
        c.pk != self.pk
    let withD := pool.filterMap fun c =>
      match c.latitude, c.longitude with
      | some clat, some clon =>
        let dist := d slat slon clat clon
        if dist ≤ radius then some (c, round1 dist) else none
      | _, _ => none
    (sortByKey (fun pr => pr.2) withD).take limit
  | _, _ => []

/-- Real-number idealization of _haversine_km from places/views.py: the
float trigonometry is read over the reals; radians converts degrees by
pi / 180, and the Earth radius is 6371 km. -/
noncomputable def haversineKm (lat1 lon1 lat2 lon2 : ℝ) : ℝ :=
  let lat1r := lat1 * (Real.pi / 180)
  let lon1r := lon1 * (Real.pi / 180)
  let lat2r := lat2 * (Real.pi / 180)
  let lon2r := lon2 * (Real.pi / 180)
  let a := Real.sin ((lat2r - lat1r) / 2) ^ 2 +
    Real.cos lat1r * Real.cos lat2r * Real.sin ((lon2r - lon1r) / 2) ^ 2
  6371.0 * (2 * Real.arcsin (Real.sqrt a))

/-- The nearby-places query with the haversine distance plugged in, at
the NEARBY_RADIUS_KM = 12 and NEARBY_LIMIT = 8 constants of
places/views.py. -/
noncomputable def nearbyByHaversine (round1 : ℝ → ℝ) (self : GeoPlace)
    (candidates : List GeoPlace) : List (GeoPlace × ℝ) :=
  getNearbyPlaces (fun a b c e => haversineKm a b c e) round1 12 8 self candidates

/-- Exceptions that geocode_location can let escape. -/
inductive GeoError
  | jsonDecodeError
  | keyError
deriving DecidableEq, Repr

/-- Body of the geocoding response: either not parseable as JSON, or a
parsed object with an optional integer status field and an optional
result object (none when the key is absent or null; a result object is
a key-value list, empty meaning the falsy empty object). -/
inductive GeoBody
  | malformed
  | parsed (status : Option Int) (result : Option (List (String × ℚ)))
deriving DecidableEq, Repr

/-- The HTTP response seen by geocode_location. -/
structure GeoResponse where
  status_code : Nat
  body : GeoBody
deriving DecidableEq, Repr

/-- Lookup of a key in a parsed JSON object. -/
def lookupKey (kvs : List (String × ℚ)) (k : String) : Option ℚ :=
  (kvs.find? fun p => p.1 == k).map fun p => p.2

/-- geocode_location from places/utils.py.  A non-200 HTTP status, a
payload status other than 200, and a missing or falsy result all return
the (none, none) pair; an unparseable body raises from response.json()
and a result object lacking the latitude or longitude key raises a key
error, both modeled as Except.error. -/
def geocode_location (resp : GeoResponse) : Except GeoError (Option ℚ × Option ℚ) :=
  if resp.status_code ≠ 200 then Except.ok (none, none)
  else
    match resp.body with
    | GeoBody.malformed => Except.error GeoError.jsonDecodeError
    | GeoBody.parsed status result =>
      if status ≠ some 200 then Except.ok (none, none)
      else
        match result with
        | none => Except.ok (none, none)
        | some kvs =>
          if kvs.isEmpty then Except.ok (none, none)
          else
            match lookupKey kvs "latitude" with
            | none => Except.error GeoError.keyError
            | some lat =>
              match lookupKey kvs "longitude" with
              | none => Except.error GeoError.keyError
              | some lon => Except.ok (some lat, some lon)

/-- Closed form of the level_name loop over the concrete LEVELS table. -/
theorem levelName_closed (P : Int) :
    level_name P =
      if 250 ≤ P then "Community Champion"
      else if 120 ≤ P then "Trusted Guide"
      else if 50 ≤ P then "Local Contributor"
      else "New Explorer" := by
  simp only [level_name, LEVELS, levelLoop]
  split_ifs <;> first | rfl | omega

/-- Closed form of the highest-threshold lookup over the concrete LEVELS
table. -/
theorem highestLevelName_closed (P : Int) :
    highestLevelName P =
      if 250 ≤ P then "Community Champion"
      else if 120 ≤ P then "Trusted Guide"
      else if 50 ≤ P then "Local Contributor"
      else "New Explorer" := by
  have h0 : ((0:Int) ≤ P) ∨ ¬((0:Int) ≤ P) := em _
  simp only [highestLevelName, LEVELS]
  split_ifs with h1 h2 h3
  · have ha : (0:Int) ≤ P := by omega
    have hb : (50:Int) ≤ P := by omega
    have hc : (120:Int) ≤ P := by omega
    simp [List.filter, ha, hb, hc, h1]
  · have ha : (0:Int) ≤ P := by omega
    have hb : (50:Int) ≤ P := by omega
    simp [List.filter, ha, hb, h2, h1]
  · have ha : (0:Int) ≤ P := by omega
    simp [List.filter, ha, h3, h2, h1]
  · rcases h0 with ha | ha
    · simp [List.filter, ha, h3, h2, h1]
    · simp [List.filter, ha, h3, h2, h1]

/-- C7: for every nonnegative points value P, level_name P is the name
attached to the highest threshold at most P in the LEVELS table, and for
every pair of point totals the level of the smaller is at or below the
level of the larger (levelRank orders the names by their table
position). -/
theorem C7_level_lookup_and_monotone :
    (∀ P : Int, 0 ≤ P → level_name P = highestLevelName P) ∧
    (∀ P1 P2 : Int, P1 ≤ P2 →
      levelRank (level_name P1) ≤ levelRank (level_name P2)) := by
  constructor
  · intro P _
    rw [levelName_closed, highestLevelName_closed]
  · intro P1 P2 h
    rw [levelName_closed, levelName_closed]
    split_ifs <;> first | decide | omega

/-- C7 witness: the lookup equality at 130 points and the monotonicity
of the rank between 40 and 9000 points. -/
theorem C7_witness :
    level_name 130 = highestLevelName 130 ∧
    levelRank (level_name 40) ≤ levelRank (level_name 9000) :=
  ⟨C7_level_lookup_and_monotone.1 130 (by decide),
   C7_level_lookup_and_monotone.2 40 9000 (by decide)⟩

/-- The save override establishes the denormalization invariant on the
in-memory instance. -/
theorem placeInv_sync (p : Place) : placeInv (placeSaveSync p) := rfl

/-- Every place operation in the repository preserves the
denormalization invariant of the stored row. -/
theorem stepPlace_inv (op : PlaceOp) (st : Place) (l : Ledger) (h : placeInv st) :
    placeInv (stepPlace op st l).1 := by
  cases op with
  | approve =>
    by_cases ha : st.moderation_status = MStatus.approved
    · simpa [stepPlace, approvePlaceAction, ha] using h
    · simp [stepPlace, approvePlaceAction, ha, savePlace, applyUpdateFields,
        placeSaveSync, placeInv]
  | reject =>
    simp [stepPlace, rejectPlaceAction, savePlace, applyUpdateFields,
      placeSaveSync, placeInv]
  | archive actor now =>
    by_cases ha : st.is_archived
    · simpa [stepPlace, archivePlaceAction, ha] using h
    · simp [stepPlace, archivePlaceAction, ha, savePlace, applyUpdateFields,
        placeSaveSync, placeInv]
  | restore =>
    by_cases ha : st.is_archived
    · simpa [stepPlace, restorePlaceAction, ha, savePlace, applyUpdateFields,
        placeSaveSync, placeInv] using h
    · simpa [stepPlace, restorePlaceAction, ha] using h
  | adminDelete actor now =>
    simp [stepPlace, deletePlaceFromAdmin, savePlace, applyUpdateFields,
      placeSaveSync, placeInv]
  | editSave inst =>
    simp [stepPlace, savePlace, applyUpdateFields, placeSaveSync, placeInv]
  | otherColsSave =>
    simpa [stepPlace, savePlace, applyUpdateFields, placeSaveSync, placeInv] using h

/-- The invariant is preserved along any sequence of place operations. -/
theorem runPlaceOps_inv (ops : List PlaceOp) :
    ∀ (st : Place) (l : Ledger), placeInv st → placeInv (runPlaceOps st l ops).1 := by
  induction ops with
  | nil => intro st l h; simpa [runPlaceOps] using h
  | cons op rest ih =>
    intro st l h
    have h2 := stepPlace_inv op st l h
    simpa [runPlaceOps, List.foldl] using ih (stepPlace op st l).1 (stepPlace op st l).2 h2

/-- C2: after every save of a Place via any operation of the repository
(creation followed by any sequence of approve, reject, archive, restore,
admin delete, full edit save or non-moderation column save), the stored
is_approved column equals the test moderation_status == approved; the
boolean is re-synchronized from the tri-state status on every save,
whatever value the caller assigned to the instance before saving. -/
theorem C2_is_approved_always_synced (inst0 : Place) (l : Ledger) (ops : List PlaceOp) :
    placeInv (runPlaceOps (savePlace none inst0 none l).1 (savePlace none inst0 none l).2 ops).1 := by
  apply runPlaceOps_inv
  simp [savePlace, placeSaveSync, placeInv]

/-- C1 counterexample: archiving a non-archived place whose moderation
status is approved does not leave is_approved false; the save override
re-syncs is_approved from the still-approved status, so the stored row
keeps is_approved = true. -/
theorem C1_counterexample :
    (archivePlaceAction
        { moderation_status := MStatus.approved, is_approved := true, is_archived := false,
          archived_at := none, archived_by := none, created_by := none }
        7 100 emptyLedger []).1.is_archived = true ∧
    (archivePlaceAction
        { moderation_status := MStatus.approved, is_approved := true, is_archived := false,
          archived_at := none, archived_by := none, created_by := none }
        7 100 emptyLedger []).1.is_approved = true := by
  constructor <;> rfl

/-- C1 amended: the archive transition sets is_archived and records
archived_at and archived_by, and the stored is_approved ends equal to
the test moderation_status == approved (false for pending or rejected
places, but still true for approved places, because the save override
re-syncs it); the restore transition clears the three archive fields and
leaves both is_approved and moderation_status exactly as stored, so a
place archived while approved is approved again right after restore,
while any other place stays unapproved until re-approved. -/
theorem C1_archive_restore_amended :
    (∀ (stored : Place) (actor now : Nat) (l : Ledger) (log : List ModAction),
      stored.is_archived = false →
      (archivePlaceAction stored actor now l log).1.is_archived = true ∧
      (archivePlaceAction stored actor now l log).1.archived_at = some now ∧
      (archivePlaceAction stored actor now l log).1.archived_by = some actor ∧
      (archivePlaceAction stored actor now l log).1.is_approved =
        (stored.moderation_status == MStatus.approved)) ∧
    (∀ (stored : Place) (l : Ledger) (log : List ModAction),
      stored.is_archived = true →
      (restorePlaceAction stored l log).1.is_archived = false ∧
      (restorePlaceAction stored l log).1.archived_at = none ∧
      (restorePlaceAction stored l log).1.archived_by = none ∧
      (restorePlaceAction stored l log).1.is_approved = stored.is_approved ∧
      (restorePlaceAction stored l log).1.moderation_status = stored.moderation_status) := by
  constructor
  · intro stored actor now l log h
    refine ⟨?_, ?_, ?_, ?_⟩ <;>
      simp [archivePlaceAction, h, savePlace, applyUpdateFields, placeSaveSync]
  · intro stored l log h
    refine ⟨?_, ?_, ?_, ?_, ?_⟩ <;>
      simp [restorePlaceAction, h, savePlace, applyUpdateFields, placeSaveSync]

/-- C1 witness: the amended archive conclusion at a concrete pending
place and the amended restore conclusion at a concrete archived place. -/
theorem C1_witness :
    ((archivePlaceAction
        { moderation_status := MStatus.pending, is_approved := false, is_archived := false,
          archived_at := none, archived_by := none, created_by := none }
        7 100 emptyLedger []).1.is_archived = true ∧
     (archivePlaceAction
        { moderation_status := MStatus.pending, is_approved := false, is_archived := false,
          archived_at := none, archived_by := none, created_by := none }
        7 100 emptyLedger []).1.archived_at = some 100 ∧
     (archivePlaceAction
        { moderation_status := MStatus.pending, is_approved := false, is_archived := false,
          archived_at := none, archived_by := none, created_by := none }
        7 100 emptyLedger []).1.archived_by = some 7 ∧
     (archivePlaceAction
        { moderation_status := MStatus.pending, is_approved := false, is_archived := false,
          archived_at := none, archived_by := none, created_by := none }
        7 100 emptyLedger []).1.is_approved =
       (MStatus.pending == MStatus.approved)) ∧
    ((restorePlaceAction
        { moderation_status := MStatus.pending, is_approved := false, is_archived := true,
          archived_at := some 100, archived_by := some 7, created_by := none }
        emptyLedger []).1.is_archived = false ∧
     (restorePlaceAction
        { moderation_status := MStatus.pending, is_approved := false, is_archived := true,
          archived_at := some 100, archived_by := some 7, created_by := none }
        emptyLedger []).1.archived_at = none ∧
     (restorePlaceAction
        { moderation_status := MStatus.pending, is_approved := false, is_archived := true,
          archived_at := some 100, archived_by := some 7, created_by := none }
        emptyLedger []).1.archived_by = none ∧
     (restorePlaceAction
        { moderation_status := MStatus.pending, is_approved := false, is_archived := true,
          archived_at := some 100, archived_by := some 7, created_by := none }
        emptyLedger []).1.is_approved = false ∧
     (restorePlaceAction
        { moderation_status := MStatus.pending, is_approved := false, is_archived := true,
          archived_at := some 100, archived_by := some 7, created_by := none }
        emptyLedger []).1.moderation_status = MStatus.pending) :=
  ⟨C1_archive_restore_amended.1
      { moderation_status := MStatus.pending, is_approved := false, is_archived := false,
        archived_at := none, archived_by := none, created_by := none }
      7 100 emptyLedger [] rfl,
   C1_archive_restore_amended.2
      { moderation_status := MStatus.pending, is_approved := false, is_archived := true,
        archived_at := some 100, archived_by := some 7, created_by := none }
      emptyLedger [] rfl⟩

/-- C3: saving a place that has a creator with status approved while the
previously stored status was not approved credits the creator with
exactly one places_added and exactly 50 points (on the row get_or_create
returns); a save whose previously stored status was already approved
leaves the ledger untouched. -/
theorem C3_first_approval_award (stored inst : Place) (fields : Option (List PlaceField))
    (l : Ledger) (u : Nat) (hcb : inst.created_by = some u) :
    (stored.moderation_status ≠ MStatus.approved →
      inst.moderation_status = MStatus.approved →
      ledgerGet (savePlace (some stored) inst fields l).2 u =
        some { (getOrCreate l u).1 with
               places_added := (getOrCreate l u).1.places_added + 1,
               points := (getOrCreate l u).1.points + 50 }) ∧
    (stored.moderation_status = MStatus.approved →
      (savePlace (some stored) inst fields l).2 = l) := by
  constructor
  · intro h1 h2
    simp only [savePlace, awardIfNewlyApproved, placeSaveSync]
    simp [h1, h2, hcb, getOrCreate, ledgerGet, ledgerSet]
  · intro h1
    simp [savePlace, awardIfNewlyApproved, h1]

/-- C3 witness: the award at a concrete pending-to-approved save and the
no-op at a concrete already-approved save, for creator 4 on the empty
ledger. -/
theorem C3_witness :
    ledgerGet
        (savePlace
          (some { moderation_status := MStatus.pending, is_approved := false,
                  is_archived := false, archived_at := none, archived_by := none,
                  created_by := some 4 })
          { moderation_status := MStatus.approved, is_approved := false,
            is_archived := false, archived_at := none, archived_by := none,
            created_by := some 4 }
          none emptyLedger).2 4 =
      some { (getOrCreate emptyLedger 4).1 with
             places_added := (getOrCreate emptyLedger 4).1.places_added + 1,
             points := (getOrCreate emptyLedger 4).1.points + 50 } ∧
    (savePlace
        (some { moderation_status := MStatus.approved, is_approved := true,
                is_archived := false, archived_at := none, archived_by := none,
                created_by := some 4 })
        { moderation_status := MStatus.approved, is_approved := true,
          is_archived := false, archived_at := none, archived_by := none,
          created_by := some 4 }
        none emptyLedger).2 = emptyLedger :=
  ⟨(C3_first_approval_award
      { moderation_status := MStatus.pending, is_approved := false, is_archived := false,
        archived_at := none, archived_by := none, created_by := some 4 }
      { moderation_status := MStatus.approved, is_approved := false, is_archived := false,
        archived_at := none, archived_by := none, created_by := some 4 }
      none emptyLedger 4 rfl).1 (by decide) rfl,
   (C3_first_approval_award
      { moderation_status := MStatus.approved, is_approved := true, is_archived := false,
        archived_at := none, archived_by := none, created_by := some 4 }
      { moderation_status := MStatus.approved, is_approved := true, is_archived := false,
        archived_at := none, archived_by := none, created_by := some 4 }
      none emptyLedger 4 rfl).2 rfl⟩

/-- C4: the uphold action on a reported, non-archived review with an
author whose penalty flag is still false increments the author
upheld_reports_count by one, floors the 30-point penalty at zero, and
sets moderation_penalty_applied on the review; running the action again
on the resulting review is a no-op, so the contribution changes by
nothing. -/
theorem C4_uphold_penalty_applied_once (rv : Review) (l : Ledger) (log : List ModAction)
    (u : Nat) (hr : rv.reported = true) (ha : rv.is_archived = false)
    (hu : rv.user = some u) (hp : rv.moderation_penalty_applied = false) :
    ledgerGet (upholdReviewAction rv l log).2.1 u =
      some { (getOrCreate l u).1 with
             upheld_reports_count := (getOrCreate l u).1.upheld_reports_count + 1,
             points := max 0 ((getOrCreate l u).1.points - 30),
             review_restriction_active :=
               if 3 ≤ (getOrCreate l u).1.upheld_reports_count + 1 then true
               else (getOrCreate l u).1.review_restriction_active } ∧
    (upholdReviewAction rv l log).1.moderation_penalty_applied = true ∧
    upholdReviewAction (upholdReviewAction rv l log).1 (upholdReviewAction rv l log).2.1
        (upholdReviewAction rv l log).2.2 =
      ((upholdReviewAction rv l log).1, (upholdReviewAction rv l log).2.1,
       (upholdReviewAction rv l log).2.2) := by
  have hstep :
      upholdReviewAction rv l log =
        ({ rv with
            reports := rv.reports.map fun s =>
              if s = RStatus.rPending then RStatus.rUpheld else s,
            is_approved := false, reported := false, moderation_penalty_applied := true },
         ledgerSet (getOrCreate l u).2 u
           { (getOrCreate l u).1 with
             upheld_reports_count := (getOrCreate l u).1.upheld_reports_count + 1,
             points := max 0 ((getOrCreate l u).1.points - 30),
             review_restriction_active :=
               if 3 ≤ (getOrCreate l u).1.upheld_reports_count + 1 then true
               else (getOrCreate l u).1.review_restriction_active },
         log ++ [ModAction.review_upheld]) := by
    simp [upholdReviewAction, hr, ha, hu, hp]
  refine ⟨?_, ?_, ?_⟩
  · rw [hstep]
    simp [ledgerGet, ledgerSet]
  · rw [hstep]
  · rw [hstep]
    simp [upholdReviewAction]

/-- C4 witness: the penalty and idempotence at a concrete reported
review by user 3 over the empty ledger. -/
theorem C4_witness :
    ledgerGet
        (upholdReviewAction
          { user := some 3, is_approved := true, reported := true,
            moderation_penalty_applied := false, is_archived := false,
            archived_at := none, archived_by := none, reports := [RStatus.rPending] }
          emptyLedger []).2.1 3 =
      some { (getOrCreate emptyLedger 3).1 with
             upheld_reports_count := (getOrCreate emptyLedger 3).1.upheld_reports_count + 1,
             points := max 0 ((getOrCreate emptyLedger 3).1.points - 30),
             review_restriction_active :=
               if 3 ≤ (getOrCreate emptyLedger 3).1.upheld_reports_count + 1 then true
               else (getOrCreate emptyLedger 3).1.review_restriction_active } ∧
    (upholdReviewAction
        { user := some 3, is_approved := true, reported := true,
          moderation_penalty_applied := false, is_archived := false,
          archived_at := none, archived_by := none, reports := [RStatus.rPending] }
        emptyLedger []).1.moderation_penalty_applied = true ∧
    upholdReviewAction
        (upholdReviewAction
          { user := some 3, is_approved := true, reported := true,
            moderation_penalty_applied := false, is_archived := false,
            archived_at := none, archived_by := none, reports := [RStatus.rPending] }
          emptyLedger []).1
        (upholdReviewAction
          { user := some 3, is_approved := true, reported := true,
            moderation_penalty_applied := false, is_archived := false,
            archived_at := none, archived_by := none, reports := [RStatus.rPending] }
          emptyLedger []).2.1
        (upholdReviewAction
          { user := some 3, is_approved := true, reported := true,
            moderation_penalty_applied := false, is_archived := false,
            archived_at := none, archived_by := none, reports := [RStatus.rPending] }
          emptyLedger []).2.2 =
      ((upholdReviewAction
          { user := some 3, is_approved := true, reported := true,
            moderation_penalty_applied := false, is_archived := false,
            archived_at := none, archived_by := none, reports := [RStatus.rPending] }
          emptyLedger []).1,
       (upholdReviewAction
          { user := some 3, is_approved := true, reported := true,
            moderation_penalty_applied := false, is_archived := false,
            archived_at := none, archived_by := none, reports := [RStatus.rPending] }
          emptyLedger []).2.1,
       (upholdReviewAction
          { user := some 3, is_approved := true, reported := true,
            moderation_penalty_applied := false, is_archived := false,
            archived_at := none, archived_by := none, reports := [RStatus.rPending] }
          emptyLedger []).2.2) :=
  C4_uphold_penalty_applied_once
    { user := some 3, is_approved := true, reported := true,
      moderation_penalty_applied := false, is_archived := false,
      archived_at := none, archived_by := none, reports := [RStatus.rPending] }
    emptyLedger [] 3 rfl rfl rfl rfl

/-- A user whose Contribution row exists and has the review restriction
set. -/
def restrictionAt (l : Ledger) (u : Nat) : Prop :=
  ∃ c, ledgerGet l u = some c ∧ c.review_restriction_active = true

/-- get_or_create never modifies an existing row, so the restriction
survives it. -/
theorem restrictionAt_getOrCreate (l : Ledger) (v u : Nat) (h : restrictionAt l u) :
    restrictionAt (getOrCreate l v).2 u := by
  rcases h with ⟨c, hc, ha⟩
  unfold getOrCreate
  cases hv : l v with
  | some d => exact ⟨c, hc, ha⟩
  | none =>
    refine ⟨c, ?_, ha⟩
    simp only [ledgerGet, ledgerSet]
    by_cases huv : u = v
    · exfalso
      have hlv : l v = some c := by rw [← huv]; exact hc
      rw [hv] at hlv
      cases hlv
    · simp [huv]
      exact hc

/-- A write of a row derived from the row get_or_create returned, by a
function that keeps the restriction flag true, preserves the
restriction for every user. -/
theorem restrictionAt_update (l : Ledger) (v : Nat) (f : Contribution → Contribution)
    (hf : ∀ c, c.review_restriction_active = true → (f c).review_restriction_active = true)
    (u : Nat) (h : restrictionAt l u) :
    restrictionAt (ledgerSet (getOrCreate l v).2 v (f (getOrCreate l v).1)) u := by
  rcases h with ⟨c, hc, ha⟩
  by_cases huv : u = v
  · subst huv
    refine ⟨f (getOrCreate l u).1, ?_, ?_⟩
    · simp [ledgerGet, ledgerSet]
    · apply hf
      have : (getOrCreate l u).1 = c := by
        unfold getOrCreate
        rw [show l u = some c from hc]
      rw [this]
      exact ha
  · have h2 := restrictionAt_getOrCreate l v u ⟨c, hc, ha⟩
    rcases h2 with ⟨d, hd, hda⟩
    refine ⟨d, ?_, hda⟩
    simp only [ledgerGet, ledgerSet, huv, if_false]
    exact hd

/-- No subsystem operation ever clears the review restriction of a user
whose row has it set. -/
theorem stepLedger_keeps_restriction (op : SubOp) (l : Ledger) (u : Nat)
    (h : restrictionAt l u) : restrictionAt (stepLedger op l) u := by
  cases op with
  | opPlaceSave stored inst fields =>
    simp only [stepLedger, savePlace, awardIfNewlyApproved]
    split_ifs with h1 h2
    · exact h
    · exact h
    · cases hcb : (placeSaveSync inst).created_by with
      | none => exact h
      | some v =>
        exact restrictionAt_update l v
          (fun c => { c with places_added := c.places_added + 1, points := c.points + 50 })
          (fun c hc => hc) u h
  | opUserCreated v => exact restrictionAt_getOrCreate l v u h
  | opReviewCreated author =>
    cases author with
    | none => exact h
    | some v =>
      simp only [stepLedger, reviewCreatedLedger]
      exact restrictionAt_update l v
        (fun c => { c with reviews_added := c.reviews_added + 1, points := c.points + 10 })
        (fun c hc => hc) u h
  | opUphold rv =>
    show restrictionAt (upholdReviewAction rv l []).2.1 u
    by_cases h1 : (rv.reported && !rv.is_archived) = true
    · cases hus : rv.user with
      | none =>
        have he : (upholdReviewAction rv l []).2.1 = l := by
          simp [upholdReviewAction, h1, hus]
        rw [he]; exact h
      | some v =>
        by_cases hp : rv.moderation_penalty_applied = true
        · have he : (upholdReviewAction rv l []).2.1 = l := by
            simp [upholdReviewAction, h1, hus, hp]
          rw [he]; exact h
        · have hp2 : rv.moderation_penalty_applied = false := by
            revert hp; cases rv.moderation_penalty_applied <;> simp
          have he : (upholdReviewAction rv l []).2.1 =
              ledgerSet (getOrCreate l v).2 v
                ((fun c => { c with
                    upheld_reports_count := c.upheld_reports_count + 1,
                    points := max 0 (c.points - 30),
                    review_restriction_active :=
                      if 3 ≤ c.upheld_reports_count + 1 then true
                      else c.review_restriction_active }) (getOrCreate l v).1) := by
            simp [upholdReviewAction, h1, hus, hp2]
          rw [he]
          exact restrictionAt_update l v
            (fun c => { c with
              upheld_reports_count := c.upheld_reports_count + 1,
              points := max 0 (c.points - 30),
              review_restriction_active :=
                if 3 ≤ c.upheld_reports_count + 1 then true
                else c.review_restriction_active })
            (fun c hc => by simp only [hc]; split_ifs <;> rfl) u h
    · have he : (upholdReviewAction rv l []).2.1 = l := by
        simp [upholdReviewAction, h1]
      rw [he]; exact h
  | opDismiss rv =>
    simp only [stepLedger, dismissReviewAction]
    split_ifs <;> exact h
  | opArchiveReview rv actor now =>
    simp only [stepLedger, archiveReviewAction]
    split_ifs <;> exact h
  | opRestoreReview rv =>
    simp only [stepLedger, restoreReviewAction]
    split_ifs <;> exact h
  | opLedgerRead v => exact restrictionAt_getOrCreate l v u h

/-- The restriction survives any sequence of subsystem operations. -/
theorem runOps_keeps_restriction (ops : List SubOp) :
    ∀ (l : Ledger) (u : Nat), restrictionAt l u → restrictionAt (runOps ops l) u := by
  induction ops with
  | nil => intro l u h; simpa [runOps] using h
  | cons op rest ih =>
    intro l u h
    have h2 := stepLedger_keeps_restriction op l u h
    simpa [runOps, List.foldl] using ih (stepLedger op l) u h2

/-- C5: the uphold action sets review_restriction_active whenever the
incremented upheld_reports_count of the author reaches 3, and once a
user has the restriction set no sequence of subsystem operations (any
place save, user creation, review creation award, uphold, dismiss,
review archive or restore, or ledger read) ever clears it. -/
theorem C5_restriction_threshold_irreversible :
    (∀ (rv : Review) (l : Ledger) (log : List ModAction) (u : Nat),
      rv.user = some u → rv.reported = true → rv.is_archived = false →
      rv.moderation_penalty_applied = false →
      3 ≤ (getOrCreate l u).1.upheld_reports_count + 1 →
      ∃ c, ledgerGet (upholdReviewAction rv l log).2.1 u = some c ∧
        c.review_restriction_active = true) ∧
    (∀ (ops : List SubOp) (l : Ledger) (u : Nat),
      restrictionAt l u → restrictionAt (runOps ops l) u) := by
  constructor
  · intro rv l log u hu hr ha hp hcount
    refine ⟨{ (getOrCreate l u).1 with
              upheld_reports_count := (getOrCreate l u).1.upheld_reports_count + 1,
              points := max 0 ((getOrCreate l u).1.points - 30),
              review_restriction_active := true }, ?_, rfl⟩
    simp [upholdReviewAction, hr, ha, hu, hp, hcount, ledgerGet, ledgerSet]
  · intro ops l u h
    exact runOps_keeps_restriction ops l u h

/-- C5 witness: the threshold firing for user 3 whose stored row already
has two upheld reports, and the survival of an already-set restriction
for user 2 across an uphold of an unrelated review. -/
theorem C5_witness :
    (∃ c, ledgerGet
        (upholdReviewAction
          { user := some 3, is_approved := true, reported := true,
            moderation_penalty_applied := false, is_archived := false,
            archived_at := none, archived_by := none, reports := [RStatus.rPending] }
          (ledgerSet emptyLedger 3
            { places_added := 0, reviews_added := 0, points := 100,
              upheld_reports_count := 2, review_restriction_active := false })
          []).2.1 3 = some c ∧
      c.review_restriction_active = true) ∧
    restrictionAt
      (runOps
        [SubOp.opUphold
          { user := some 3, is_approved := true, reported := true,
            moderation_penalty_applied := false, is_archived := false,
            archived_at := none, archived_by := none, reports := [] }]
        (ledgerSet emptyLedger 2
          { places_added := 0, reviews_added := 0, points := 0,
            upheld_reports_count := 3, review_restriction_active := true }))
      2 :=
  ⟨C5_restriction_threshold_irreversible.1
      { user := some 3, is_approved := true, reported := true,
        moderation_penalty_applied := false, is_archived := false,
        archived_at := none, archived_by := none, reports := [RStatus.rPending] }
      (ledgerSet emptyLedger 3
        { places_added := 0, reviews_added := 0, points := 100,
          upheld_reports_count := 2, review_restriction_active := false })
      [] 3 rfl rfl rfl rfl (by decide),
   C5_restriction_threshold_irreversible.2
      [SubOp.opUphold
        { user := some 3, is_approved := true, reported := true,
          moderation_penalty_applied := false, is_archived := false,
          archived_at := none, archived_by := none, reports := [] }]
      (ledgerSet emptyLedger 2
        { places_added := 0, reviews_added := 0, points := 0,
          upheld_reports_count := 3, review_restriction_active := true })
      2
      ⟨{ places_added := 0, reviews_added := 0, points := 0,
         upheld_reports_count := 3, review_restriction_active := true }, rfl, rfl⟩⟩

/-- C10: the uphold action on a reported, non-archived guest review
(user is null) hides the review (is_approved false, reported cleared)
and appends one moderation log entry, while the ledger is completely
untouched and the moderation_penalty_applied flag stays false. -/
theorem C10_guest_review_no_penalty (rv : Review) (l : Ledger) (log : List ModAction)
    (hr : rv.reported = true) (ha : rv.is_archived = false) (hu : rv.user = none)
    (hp : rv.moderation_penalty_applied = false) :
    (upholdReviewAction rv l log).1.is_approved = false ∧
    (upholdReviewAction rv l log).1.reported = false ∧
    (upholdReviewAction rv l log).1.moderation_penalty_applied = false ∧
    (upholdReviewAction rv l log).2.1 = l ∧
    (upholdReviewAction rv l log).2.2 = log ++ [ModAction.review_upheld] := by
  have hstep :
      upholdReviewAction rv l log =
        ({ rv with
            reports := rv.reports.map fun s =>
              if s = RStatus.rPending then RStatus.rUpheld else s,
            is_approved := false, reported := false },
         l, log ++ [ModAction.review_upheld]) := by
    simp [upholdReviewAction, hr, ha, hu]
  rw [hstep]
  exact ⟨rfl, rfl, hp, rfl, rfl⟩

/-- C10 witness: the guest branch at a concrete reported review with no
author over the empty ledger. -/
theorem C10_witness :
    (upholdReviewAction
        { user := none, is_approved := true, reported := true,
          moderation_penalty_applied := false, is_archived := false,
          archived_at := none, archived_by := none, reports := [RStatus.rPending] }
        emptyLedger []).1.is_approved = false ∧
    (upholdReviewAction
        { user := none, is_approved := true, reported := true,
          moderation_penalty_applied := false, is_archived := false,
          archived_at := none, archived_by := none, reports := [RStatus.rPending] }
        emptyLedger []).1.reported = false ∧
    (upholdReviewAction
        { user := none, is_approved := true, reported := true,
          moderation_penalty_applied := false, is_archived := false,
          archived_at := none, archived_by := none, reports := [RStatus.rPending] }
        emptyLedger []).1.moderation_penalty_applied = false ∧
    (upholdReviewAction
        { user := none, is_approved := true, reported := true,
          moderation_penalty_applied := false, is_archived := false,
          archived_at := none, archived_by := none, reports := [RStatus.rPending] }
        emptyLedger []).2.1 = emptyLedger ∧
    (upholdReviewAction
        { user := none, is_approved := true, reported := true,
          moderation_penalty_applied := false, is_archived := false,
          archived_at := none, archived_by := none, reports := [RStatus.rPending] }
        emptyLedger []).2.2 = [] ++ [ModAction.review_upheld] :=
  C10_guest_review_no_penalty
    { user := none, is_approved := true, reported := true,
      moderation_penalty_applied := false, is_archived := false,
      archived_at := none, archived_by := none, reports := [RStatus.rPending] }
    emptyLedger [] rfl rfl rfl rfl

/-- The similarity loop equals an any-scan of the length-and-ratio test:
rows with empty normalization are skipped by the loop but also fail the
25-character bound. -/
theorem similarLoop_eq_any (candidate : List Char) (ts : List String) :
    similarLoop candidate ts =
      ts.any fun t =>
        decide (25 ≤ candidate.length) && decide (25 ≤ (normalize_text t).length) &&
          ratioGe85 candidate (normalize_text t).data := by
  induction ts with
  | nil => rfl
  | cons t ts ih =>
    by_cases he : ((normalize_text t).data).isEmpty = true
    · have hlen : (normalize_text t).length = 0 := by
        have : (normalize_text t).data = [] := by
          simpa [List.isEmpty_iff] using he
        simp [String.length, this]
      simp [similarLoop, he, hlen, ih]
    · have he2 : ((normalize_text t).data).isEmpty = false := by
        revert he; cases ((normalize_text t).data).isEmpty <;> simp
      by_cases hcond :
          (decide (25 ≤ candidate.length) && decide (25 ≤ (normalize_text t).length) &&
            ratioGe85 candidate (normalize_text t).data) = true
      · simp [similarLoop, he2, hcond]
      · have hcond2 :
            (decide (25 ≤ candidate.length) && decide (25 ≤ (normalize_text t).length) &&
              ratioGe85 candidate (normalize_text t).data) = false := by
          revert hcond
          cases decide (25 ≤ candidate.length) && decide (25 ≤ (normalize_text t).length) &&
            ratioGe85 candidate (normalize_text t).data <;> simp
        simp [similarLoop, he2, hcond2, ih]

/-- An any-scan over a mapped list tests the composition. -/
theorem listAnyMap {α β : Type} (f : α → β) (p : β → Bool) (l : List α) :
    (l.map f).any p = l.any fun a => p (f a) := by
  induction l with
  | nil => rfl
  | cons a t ih => simp [List.any, ih]

/-- C6 counterexample: the submitted text consisting only of punctuation
normalizes to the empty string, so the checker returns false although a
non-archived review with case-insensitively equal raw text exists. -/
theorem C6_counterexample :
    is_duplicate_or_similar_review [{ text := "!!!", is_archived := false }] "!!!" = false ∧
    lowerEq "!!!" "!!!" = true ∧ normalize_text "!!!" = "" := by
  refine ⟨?_, ?_, ?_⟩ <;> rfl

/-- C6 amended: for every submitted text whose normalization is
nonempty, the checker returns true exactly when a non-archived review
with case-insensitively equal raw text exists, or one of the 50 most
recent non-archived reviews passes the two 25-character bounds and the
0.85 ratio bound against the normalized candidate (so a short or
dissimilar text yields false); a text normalizing to the empty string
always yields false, even when an exact case-insensitive match exists. -/
theorem C6_duplicate_check_amended (reviews : List ReviewRow) (text : String) :
    (normalize_text text ≠ "" →
      is_duplicate_or_similar_review reviews text = specDuplicateCheck reviews text) ∧
    (normalize_text text = "" →
      is_duplicate_or_similar_review reviews text = false) := by
  constructor
  · intro h
    have hne : ((normalize_text text).data).isEmpty = false := by
      cases hd : (normalize_text text).data with
      | nil =>
        exfalso
        apply h
        cases hs : normalize_text text with
        | mk data =>
          rw [hs] at hd
          simp only at hd
          rw [hd]
      | cons c cs => rfl
    rw [is_duplicate_or_similar_review, specDuplicateCheck]
    simp only [hne, Bool.false_eq_true, if_false]
    by_cases hex : (reviews.any fun r => !r.is_archived && lowerEq r.text text) = true
    · simp [hex]
    · have hex2 : (reviews.any fun r => !r.is_archived && lowerEq r.text text) = false := by
        revert hex
        cases reviews.any fun r => !r.is_archived && lowerEq r.text text <;> simp
      simp only [hex2, Bool.false_eq_true, if_false]
      rw [similarLoop_eq_any, listAnyMap]
      rfl
  · intro h
    rw [is_duplicate_or_similar_review]
    simp [h]

/-- C6 witness: the amended equivalence evaluated at a concrete
non-archived review and a case-insensitive repeat of it. -/
theorem C6_witness :
    is_duplicate_or_similar_review [{ text := "Great spot", is_archived := false }]
        "GREAT spot!" =
      specDuplicateCheck [{ text := "Great spot", is_archived := false }] "GREAT spot!" :=
  (C6_duplicate_check_amended [{ text := "Great spot", is_archived := false }]
    "GREAT spot!").1 (by decide)

/-- Membership through keyed insertion. -/
theorem mem_insertByKey {α β : Type} [LinearOrder α] (key : β → α) (x a : β) (l : List β) :
    a ∈ insertByKey key x l ↔ a = x ∨ a ∈ l := by
  induction l with
  | nil => simp [insertByKey]
  | cons y ys ih =>
    by_cases h : key x ≤ key y
    · simp only [insertByKey, if_pos h, List.mem_cons]
    · simp only [insertByKey, if_neg h, List.mem_cons, ih]
      tauto

/-- Membership through the keyed insertion sort. -/
theorem mem_sortByKey {α β : Type} [LinearOrder α] (key : β → α) (a : β) (l : List β) :
    a ∈ sortByKey key l ↔ a ∈ l := by
  induction l with
  | nil => simp [sortByKey]
  | cons y ys ih =>
    simp [sortByKey, mem_insertByKey, ih]

/-- Keyed insertion preserves sortedness by the key. -/
theorem pairwise_insertByKey {α β : Type} [LinearOrder α] (key : β → α) (x : β) (l : List β)
    (h : l.Pairwise fun a b => key a ≤ key b) :
    (insertByKey key x l).Pairwise fun a b => key a ≤ key b := by
  induction l with
  | nil => simp [insertByKey]
  | cons y ys ih =>
    rcases List.pairwise_cons.mp h with ⟨hy, hys⟩
    by_cases hxy : key x ≤ key y
    · rw [insertByKey, if_pos hxy]
      refine List.pairwise_cons.mpr ⟨?_, h⟩
      intro b hb
      rcases List.mem_cons.mp hb with hb | hb
      · rw [hb]; exact hxy
      · exact le_trans hxy (hy b hb)
    · rw [insertByKey, if_neg hxy]
      refine List.pairwise_cons.mpr ⟨?_, ih hys⟩
      intro b hb
      rcases (mem_insertByKey key x b ys).mp hb with hb | hb
      · rw [hb]; exact le_of_not_le hxy
      · exact hy b hb

/-- The keyed insertion sort returns a list sorted by the key. -/
theorem pairwise_sortByKey {α β : Type} [LinearOrder α] (key : β → α) (l : List β) :
    (sortByKey key l).Pairwise fun a b => key a ≤ key b := by
  induction l with
  | nil => simp [sortByKey]
  | cons y ys ih => exact pairwise_insertByKey key y (sortByKey key ys) ih

/-- Structural description of the nearby-places pipeline, generic in the
distance function, the rounding function, the radius and the limit:
every returned row is an approved, non-archived candidate with both
coordinates and a different primary key whose distance is within the
radius, carrying the rounded distance; the output is sorted ascending by
the attached distance value and bounded by the limit. -/
theorem getNearbyPlaces_spec {α : Type} [LinearOrder α] (d : ℚ → ℚ → ℚ → ℚ → α)
    (round1 : α → α) (radius : α) (limit : Nat) (self : GeoPlace) (cs : List GeoPlace)
    (slat slon : ℚ) (hlat : self.latitude = some slat) (hlon : self.longitude = some slon) :
    (∀ pr ∈ getNearbyPlaces d round1 radius limit self cs,
      pr.1 ∈ cs ∧ pr.1.is_approved = true ∧ pr.1.is_archived = false ∧
      pr.1.pk ≠ self.pk ∧
      ∃ clat clon, pr.1.latitude = some clat ∧ pr.1.longitude = some clon ∧
        d slat slon clat clon ≤ radius ∧ pr.2 = round1 (d slat slon clat clon)) ∧
    (getNearbyPlaces d round1 radius limit self cs).Pairwise (fun x y => x.2 ≤ y.2) ∧
    (getNearbyPlaces d round1 radius limit self cs).length ≤ limit := by
  have hout : getNearbyPlaces d round1 radius limit self cs =
      (sortByKey (fun pr => pr.2)
        ((cs.filter fun c =>
          c.is_approved && !c.is_archived && c.latitude.isSome && c.longitude.isSome &&
            c.pk != self.pk).filterMap fun c =>
          match c.latitude, c.longitude with
          | some clat, some clon =>
            if d slat slon clat clon ≤ radius then some (c, round1 (d slat slon clat clon))
            else none
          | _, _ => none)).take limit := by
    rw [getNearbyPlaces, hlat, hlon]
  refine ⟨?_, ?_, ?_⟩
  · intro pr hpr
    rw [hout] at hpr
    have hsort := List.mem_of_mem_take hpr
    rw [mem_sortByKey] at hsort
    rcases List.mem_filterMap.mp hsort with ⟨c, hcmem, hfc⟩
    rcases List.mem_filter.mp hcmem with ⟨hcs, hflags⟩
    simp only [Bool.and_eq_true, bne_iff_ne, Option.isSome_iff_exists] at hflags
    rcases hflags with ⟨⟨⟨⟨happ, harch⟩, ⟨clat, hclat⟩⟩, ⟨clon, hclon⟩⟩, hpk⟩
    rw [hclat, hclon] at hfc
    dsimp only at hfc
    by_cases hd : d slat slon clat clon ≤ radius
    · rw [if_pos hd] at hfc
      have hpr2 : pr = (c, round1 (d slat slon clat clon)) := by
        cases hfc
        rfl
      rw [hpr2]
      refine ⟨hcs, happ, ?_, hpk, clat, clon, hclat, hclon, hd, rfl⟩
      revert harch
      cases c.is_archived <;> simp
    · rw [if_neg hd] at hfc
      cases hfc
  · rw [hout]
    exact (pairwise_sortByKey (fun pr : GeoPlace × α => pr.2) _).sublist
      (List.take_sublist limit _)
  · rw [hout]
    exact List.length_take_le limit _

/-- The haversine distance from a point to itself vanishes. -/
theorem haversineKm_self (lat lon : ℝ) : haversineKm lat lon lat lon = 0 := by
  simp [haversineKm]

/-- C8: every row returned by the haversine-based nearby query (radius
12 km, limit 8, Earth radius 6371 km inside haversineKm) is another
approved, non-archived candidate with both coordinates whose haversine
distance from the reference place is within 12 km (so a candidate 12.1
km away is excluded) and carries the rounded distance; the output is
sorted ascending by the attached distance value and holds at most 8
rows; and the haversine distance between (50, -5) and itself is 0. -/
theorem C8_nearby_query (round1 : ℝ → ℝ) (self : GeoPlace) (cs : List GeoPlace)
    (slat slon : ℚ) (hlat : self.latitude = some slat) (hlon : self.longitude = some slon) :
    (∀ pr ∈ nearbyByHaversine round1 self cs,
      pr.1 ∈ cs ∧ pr.1.is_approved = true ∧ pr.1.is_archived = false ∧
      pr.1.pk ≠ self.pk ∧
      ∃ clat clon, pr.1.latitude = some clat ∧ pr.1.longitude = some clon ∧
        haversineKm slat slon clat clon ≤ 12 ∧
        pr.2 = round1 (haversineKm slat slon clat clon)) ∧
    (nearbyByHaversine round1 self cs).Pairwise (fun x y => x.2 ≤ y.2) ∧
    (nearbyByHaversine round1 self cs).length ≤ 8 ∧
    haversineKm 50 (-5) 50 (-5) = 0 := by
  have hspec := getNearbyPlaces_spec (fun a b c e => haversineKm a b c e) round1 12 8
    self cs slat slon hlat hlon
  exact ⟨hspec.1, hspec.2.1, hspec.2.2, haversineKm_self 50 (-5)⟩

/-- C8 witness: the query at a reference place with coordinates
(50, -5) over an empty candidate pool, with the identity rounding. -/
theorem C8_witness :
    (∀ pr ∈ nearbyByHaversine id
        { pk := 0, is_approved := true, is_archived := false,
          latitude := some 50, longitude := some (-5) } [],
      pr.1 ∈ ([] : List GeoPlace) ∧ pr.1.is_approved = true ∧ pr.1.is_archived = false ∧
      pr.1.pk ≠ (0 : Nat) ∧
      ∃ clat clon, pr.1.latitude = some clat ∧ pr.1.longitude = some clon ∧
        haversineKm (50 : ℚ) (-5 : ℚ) clat clon ≤ 12 ∧
        pr.2 = id (haversineKm (50 : ℚ) (-5 : ℚ) clat clon)) ∧
    (nearbyByHaversine id
        { pk := 0, is_approved := true, is_archived := false,
          latitude := some 50, longitude := some (-5) } []).Pairwise
      (fun x y => x.2 ≤ y.2) ∧
    (nearbyByHaversine id
        { pk := 0, is_approved := true, is_archived := false,
          latitude := some 50, longitude := some (-5) } []).length ≤ 8 ∧
    haversineKm 50 (-5) 50 (-5) = 0 :=
  C8_nearby_query id
    { pk := 0, is_approved := true, is_archived := false,
      latitude := some 50, longitude := some (-5) } [] 50 (-5) rfl rfl

/-- C9 counterexample: two failure outcomes on which geocode_location
does not return the (none, none) pair.  A 200 response whose body fails
to parse raises from response.json(), and a 200 response with status
200 whose result object lacks the longitude key raises a key error from
the result subscription; both exceptions escape geocode_location. -/
theorem C9_counterexample :
    (geocode_location { status_code := 200, body := GeoBody.malformed } =
      Except.error GeoError.jsonDecodeError ∧
     geocode_location { status_code := 200, body := GeoBody.malformed } ≠
      Except.ok (none, none)) ∧
    (geocode_location
        { status_code := 200,
          body := GeoBody.parsed (some 200) (some [("latitude", (50 : ℚ))]) } =
      Except.error GeoError.keyError ∧
     geocode_location
        { status_code := 200,
          body := GeoBody.parsed (some 200) (some [("latitude", (50 : ℚ))]) } ≠
      Except.ok (none, none)) := by
  refine ⟨⟨rfl, ?_⟩, ⟨rfl, ?_⟩⟩
  · intro h
    cases h
  · intro h
    cases h

/-- C9 amended: geocode_location returns (none, none) on a non-200 HTTP
status, on a payload status field other than 200, and on a missing or
empty result, and returns the latitude and longitude taken from the
result when both keys are present; a payload that cannot be parsed, or
a result lacking one of the coordinate keys, raises instead of
returning (none, none). -/
theorem C9_geocode_amended :
    (∀ resp : GeoResponse, resp.status_code ≠ 200 →
      geocode_location resp = Except.ok (none, none)) ∧
    (∀ (status : Option Int) (result : Option (List (String × ℚ))), status ≠ some 200 →
      geocode_location { status_code := 200, body := GeoBody.parsed status result } =
        Except.ok (none, none)) ∧
    (geocode_location { status_code := 200, body := GeoBody.parsed (some 200) none } =
      Except.ok (none, none) ∧
     geocode_location { status_code := 200, body := GeoBody.parsed (some 200) (some []) } =
      Except.ok (none, none)) ∧
    (∀ (kvs : List (String × ℚ)) (lat lon : ℚ), kvs.isEmpty = false →
      lookupKey kvs "latitude" = some lat → lookupKey kvs "longitude" = some lon →
      geocode_location { status_code := 200, body := GeoBody.parsed (some 200) (some kvs) } =
        Except.ok (some lat, some lon)) ∧
    (∀ kvs : List (String × ℚ), kvs.isEmpty = false →
      lookupKey kvs "latitude" = none →
      geocode_location { status_code := 200, body := GeoBody.parsed (some 200) (some kvs) } =
        Except.error GeoError.keyError) ∧
    (∀ (kvs : List (String × ℚ)) (lat : ℚ), kvs.isEmpty = false →
      lookupKey kvs "latitude" = some lat → lookupKey kvs "longitude" = none →
      geocode_location { status_code := 200, body := GeoBody.parsed (some 200) (some kvs) } =
        Except.error GeoError.keyError) ∧
    (geocode_location { status_code := 200, body := GeoBody.malformed } =
      Except.error GeoError.jsonDecodeError) := by
  refine ⟨?_, ?_, ⟨rfl, rfl⟩, ?_, ?_, ?_, rfl⟩
  · intro resp h
    rw [geocode_location, if_pos h]
  · intro status result h
    simp [geocode_location, h]
  · intro kvs lat lon hne hlat hlon
    rw [geocode_location]
    simp [hne, hlat, hlon]
  · intro kvs hne hlat
    rw [geocode_location]
    simp [hne, hlat]
  · intro kvs lat hne hlat hlon
    rw [geocode_location]
    simp [hne, hlat, hlon]

/-- C9 witness: the amended conclusions at concrete responses, matching
the shapes exercised by tests/unit/test_places_utils.py, together with
the key-error raise at a result carrying only the latitude key. -/
theorem C9_witness :
    geocode_location { status_code := 500, body := GeoBody.parsed none none } =
      Except.ok (none, none) ∧
    geocode_location { status_code := 200, body := GeoBody.parsed (some 404) (some []) } =
      Except.ok (none, none) ∧
    geocode_location
        { status_code := 200,
          body := GeoBody.parsed (some 200)
            (some [("latitude", (501 : ℚ)/10), ("longitude", -(51 : ℚ)/10)]) } =
      Except.ok (some ((501 : ℚ)/10), some (-(51 : ℚ)/10)) ∧
    geocode_location
        { status_code := 200,
          body := GeoBody.parsed (some 200) (some [("latitude", (501 : ℚ)/10)]) } =
      Except.error GeoError.keyError :=
  ⟨C9_geocode_amended.1 { status_code := 500, body := GeoBody.parsed none none } (by decide),
   C9_geocode_amended.2.1 (some 404) (some []) (by decide),
   C9_geocode_amended.2.2.2.1 [("latitude", (501 : ℚ)/10), ("longitude", -(51 : ℚ)/10)]
     ((501 : ℚ)/10) (-(51 : ℚ)/10) rfl rfl rfl,
   C9_geocode_amended.2.2.2.2.2.1 [("latitude", (501 : ℚ)/10)] ((501 : ℚ)/10)
     rfl rfl rfl⟩
